import Mathlib

/-!
Verification of the flood-area-analysis tool (`Flood_analysis.ipynb`).

The development shallowly embeds the two core functions of the notebook:

* `classify_flood_depth` — turns a 2-D grid of depth values into a grid of
  integer flood categories, driven by a threshold list; and
* `calculate_flood_area_by_village` — the zonal aggregator that, per polygon,
  clips the raster (via an injected collaborator), classifies the clipped
  grid, counts cells per category, scales counts by pixel area and a unit
  factor, and assembles one output record per polygon.

Float cells are modelled by `FVal` (a rational value, or NaN with the usual
all-comparisons-false semantics); Python exceptions are modelled by
`Except String`; the order of the aggregator's observable I/O steps is
recorded in an event trace so that claims about *when* a failure happens
can be stated.
-/

/-- A raster cell value: either NaN (numpy no-data) or a real (rational) depth.
All numpy comparisons with NaN evaluate to false. -/
inductive FVal where
  | nan : FVal
  | val : ℚ → FVal
deriving DecidableEq

/-- Comparison `d > q` as numpy evaluates it (false for NaN). -/
def fgt : FVal → ℚ → Bool
  | .nan, _ => false
  | .val x, q => decide (q < x)

/-- Comparison `d <= q` as numpy evaluates it (false for NaN). -/
def fle : FVal → ℚ → Bool
  | .nan, _ => false
  | .val x, q => decide (x ≤ q)

/-- Test `d == 0` as numpy evaluates it (false for NaN). -/
def feq0 : FVal → Bool
  | .nan => false
  | .val x => decide (x = 0)

/-- The test of the assignment performed at loop index `i` of
`classify_flood_depth`'s threshold loop: for `i = 0` the band is
`(depth > 0) & (depth <= thresholds[0])`, otherwise
`(depth > thresholds[i-1]) & (depth <= thresholds[i])`. -/
def bandTest (d : FVal) (ts : List ℚ) (i : ℕ) : Bool :=
  if i = 0 then fgt d 0 && fle d (ts.getD i 0)
  else fgt d (ts.getD (i - 1) 0) && fle d (ts.getD i 0)

/-- Per-cell result of `classify_flood_depth`'s sequence of masked
assignments, mirrored statement by statement:
`classified = np.zeros_like(depth_array)`, then `classified[depth == 0] = 0`,
then the loop over `enumerate(thresholds)`, then
`classified[depth > thresholds[-1]] = len(thresholds) + 1`.
(Each numpy masked assignment acts cell-wise, so the whole-array program is
the per-cell composition of these steps.) -/
def classifyCell (d : FVal) (ts : List ℚ) : ℕ :=
  let classified0 : ℕ := 0
  let classified1 : ℕ := if feq0 d then 0 else classified0
  let afterLoop :=
    (List.range ts.length).foldl
      (fun acc i =>
        if i = 0 then
          if fgt d 0 && fle d (ts.getD i 0) then i + 1 else acc
        else
          if fgt d (ts.getD (i - 1) 0) && fle d (ts.getD i 0) then i + 1 else acc)
      classified1
  if fgt d (ts.getD (ts.length - 1) 0) then ts.length + 1 else afterLoop

/-- The function `classify_flood_depth(depth_array, thresholds)` on a 2-D grid.
When `thresholds` is empty the loop body never runs and the final statement
indexes `thresholds[-1]` into the empty list, raising an uncaught
`IndexError`; this is modelled by `Except.error`.  Otherwise every cell is
classified by `classifyCell`. -/
def classify_flood_depth (grid : List (List FVal)) (ts : List ℚ) :
    Except String (List (List ℕ)) :=
  if ts.isEmpty then .error "IndexError: list index out of range"
  else .ok (grid.map (fun row => row.map (fun d => classifyCell d ts)))

/-! ### Characterizing the sequence of masked assignments -/

section FoldSelect

variable (f : ℕ → Bool) (g : ℕ → ℕ)

/-- A fold of guarded overwrites either keeps the initial value or ends at
`g j` for some selected index `j`. -/
lemma foldl_select_cases :
    ∀ (l : List ℕ) (a : ℕ),
      l.foldl (fun acc i => if f i then g i else acc) a = a ∨
      ∃ j ∈ l, f j = true ∧ l.foldl (fun acc i => if f i then g i else acc) a = g j := by
  intro l
  induction l with
  | nil => exact fun a => Or.inl rfl
  | cons x xs ih =>
    intro a
    simp only [List.foldl_cons]
    by_cases hx : f x = true
    · rcases ih (if f x then g x else a) with h | ⟨j, hj, hfj, hres⟩
      · right
        refine ⟨x, List.mem_cons_self x xs, hx, ?_⟩
        rw [h, if_pos hx]
      · right; exact ⟨j, List.mem_cons_of_mem x hj, hfj, hres⟩
    · rcases ih (if f x then g x else a) with h | ⟨j, hj, hfj, hres⟩
      · left; rw [h, if_neg hx]
      · right; exact ⟨j, List.mem_cons_of_mem x hj, hfj, hres⟩

/-- If every selected index yields the same value `b`, and either the initial
value is already `b` or some index of the list is selected, the fold of
guarded overwrites returns `b`. -/
lemma foldl_select_eq (b : ℕ) :
    ∀ (l : List ℕ) (a : ℕ), (∀ j ∈ l, f j = true → g j = b) →
      (a = b ∨ ∃ j ∈ l, f j = true) →
      l.foldl (fun acc i => if f i then g i else acc) a = b := by
  intro l
  induction l with
  | nil =>
    intro a _ ha
    rcases ha with ha | ⟨j, hj, _⟩
    · exact ha
    · exact absurd hj (List.not_mem_nil j)
  | cons x xs ih =>
    intro a hall ha
    simp only [List.foldl_cons]
    by_cases hx : f x = true
    · refine ih _ (fun j hj hfj => hall j (List.mem_cons_of_mem x hj) hfj) (Or.inl ?_)
      rw [if_pos hx]
      exact hall x (List.mem_cons_self x xs) hx
    · refine ih _ (fun j hj hfj => hall j (List.mem_cons_of_mem x hj) hfj) ?_
      rcases ha with ha | ⟨j, hj, hfj⟩
      · left; rw [if_neg hx]; exact ha
      · rcases List.mem_cons.1 hj with rfl | hj
        · exact absurd hfj hx
        · right; exact ⟨j, hj, hfj⟩

end FoldSelect

/-- The threshold loop of `classifyCell`, written through `bandTest`. -/
lemma classifyCell_eq_band (d : FVal) (ts : List ℚ) :
    classifyCell d ts =
      if fgt d (ts.getD (ts.length - 1) 0) then ts.length + 1
      else (List.range ts.length).foldl
        (fun acc i => if bandTest d ts i then i + 1 else acc) 0 := by
  have hbody :
      (fun (acc i : ℕ) =>
        if i = 0 then
          if fgt d 0 && fle d (ts.getD i 0) then i + 1 else acc
        else
          if fgt d (ts.getD (i - 1) 0) && fle d (ts.getD i 0) then i + 1 else acc) =
      (fun (acc i : ℕ) => if bandTest d ts i then i + 1 else acc) := by
    funext acc i
    by_cases hi : i = 0 <;> simp [bandTest, hi]
  simp only [classifyCell, ite_self, hbody]

/-- Lower bound of band `i`: `0` for the first band, `thresholds[i-1]` after. -/
def bandLower (ts : List ℚ) (i : ℕ) : ℚ :=
  if i = 0 then 0 else ts.getD (i - 1) 0

lemma getD_lt_getD_of_sorted {ts : List ℚ} (hsort : List.Sorted (· < ·) ts)
    {i j : ℕ} (hij : i < j) (hj : j < ts.length) :
    ts.getD i 0 < ts.getD j 0 := by
  have hi : i < ts.length := lt_trans hij hj
  rw [List.getD_eq_get ts 0 hi, List.getD_eq_get ts 0 hj]
  exact (List.pairwise_iff_get.1 hsort) ⟨i, hi⟩ ⟨j, hj⟩ (by simpa using hij)

lemma getD_le_getD_of_sorted {ts : List ℚ} (hsort : List.Sorted (· < ·) ts)
    {i j : ℕ} (hij : i ≤ j) (hj : j < ts.length) :
    ts.getD i 0 ≤ ts.getD j 0 := by
  rcases lt_or_eq_of_le hij with h | h
  · exact le_of_lt (getD_lt_getD_of_sorted hsort h hj)
  · rw [h]

lemma getD_pos {ts : List ℚ} (hpos : ∀ t ∈ ts, 0 < t) {i : ℕ}
    (hi : i < ts.length) : 0 < ts.getD i 0 := by
  rw [List.getD_eq_get ts 0 hi]
  exact hpos _ (List.get_mem ts i hi)

/-- What `bandTest` says about an actual (non-NaN) value. -/
lemma bandTest_val_iff (ts : List ℚ) (x : ℚ) (i : ℕ) :
    bandTest (.val x) ts i = true ↔ (bandLower ts i < x ∧ x ≤ ts.getD i 0) := by
  by_cases hi : i = 0 <;>
    simp [bandTest, bandLower, fgt, fle, hi]

lemma bandTest_nan (ts : List ℚ) (i : ℕ) : bandTest .nan ts i = false := by
  by_cases hi : i = 0 <;> simp [bandTest, fgt, hi]

/-- Under sorted thresholds, the band tests are pairwise disjoint. -/
lemma bandTest_disjoint {ts : List ℚ} (hsort : List.Sorted (· < ·) ts)
    {x : ℚ} {i j : ℕ} (hij : i < j) (hj : j < ts.length)
    (hi' : bandTest (.val x) ts i = true) (hj' : bandTest (.val x) ts j = true) :
    False := by
  obtain ⟨-, hupi⟩ := (bandTest_val_iff ts x i).1 hi'
  obtain ⟨hlowj, -⟩ := (bandTest_val_iff ts x j).1 hj'
  have hj0 : j ≠ 0 := by omega
  rw [bandLower, if_neg hj0] at hlowj
  have hle : ts.getD i 0 ≤ ts.getD (j - 1) 0 :=
    getD_le_getD_of_sorted hsort (by omega) (by omega)
  linarith

/-- Every cell's category is at most `len(thresholds) + 1`, for any input. -/
lemma classifyCell_le (d : FVal) (ts : List ℚ) :
    classifyCell d ts ≤ ts.length + 1 := by
  rw [classifyCell_eq_band]
  by_cases h : fgt d (ts.getD (ts.length - 1) 0) = true
  · rw [if_pos h]
  · rw [if_neg h]
    rcases foldl_select_cases (bandTest d ts) (fun j => j + 1)
        (List.range ts.length) 0 with h0 | ⟨j, hj, -, hres⟩
    · rw [h0]; exact Nat.zero_le _
    · have hres' : (List.range ts.length).foldl
          (fun acc i => if bandTest d ts i then i + 1 else acc) 0 = j + 1 := by
        simpa using hres
      rw [hres']
      have := List.mem_range.1 hj
      omega

/-- NaN cells keep the zero-initialized category. -/
lemma classifyCell_nan (ts : List ℚ) : classifyCell FVal.nan ts = 0 := by
  rw [classifyCell_eq_band]
  rw [if_neg (by simp [fgt])]
  exact foldl_select_eq _ _ 0 _ 0
    (fun j hj hfj => absurd hfj (by simp [bandTest_nan])) (Or.inl rfl)

/-- Non-positive depths keep the zero-initialized category when all
thresholds are positive. -/
lemma classifyCell_val_nonpos {ts : List ℚ} (hpos : ∀ t ∈ ts, 0 < t)
    {x : ℚ} (hx : x ≤ 0) : classifyCell (.val x) ts = 0 := by
  have hnotband : ∀ i ∈ List.range ts.length, bandTest (.val x) ts i = false := by
    intro i hi
    have hi' : i < ts.length := List.mem_range.1 hi
    rw [Bool.eq_false_iff]
    intro hband
    obtain ⟨hlow, -⟩ := (bandTest_val_iff ts x i).1 hband
    by_cases h0 : i = 0
    · rw [bandLower, if_pos h0] at hlow; linarith
    · rw [bandLower, if_neg h0] at hlow
      have := getD_pos hpos (show i - 1 < ts.length by omega)
      linarith
  rw [classifyCell_eq_band]
  have hlastpos : fgt (.val x) (ts.getD (ts.length - 1) 0) = false := by
    by_cases hts : ts = []
    · subst hts
      simp only [fgt, decide_eq_false_iff_not]
      intro h
      simp only [List.getD_nil] at h
      linarith
    · have hlt : ts.length - 1 < ts.length := by
        have := List.length_pos.2 hts; omega
      have h0 := getD_pos hpos hlt
      simp only [fgt, decide_eq_false_iff_not]
      intro h
      linarith
  have hlastpos' : ¬ (fgt (.val x) (ts.getD (ts.length - 1) 0) = true) := by
    rw [hlastpos]; exact Bool.false_ne_true
  rw [if_neg hlastpos']
  exact foldl_select_eq _ _ 0 _ 0
    (fun j hj hfj => absurd hfj (by rw [hnotband j hj]; simp)) (Or.inl rfl)

/-- Band membership characterizes categories `1..n` exactly, for sorted
thresholds. -/
lemma classifyCell_val_band_iff {ts : List ℚ} (hsort : List.Sorted (· < ·) ts)
    (x : ℚ) {i : ℕ} (hi : i < ts.length) :
    classifyCell (.val x) ts = i + 1 ↔ (bandLower ts i < x ∧ x ≤ ts.getD i 0) := by
  rw [classifyCell_eq_band]
  by_cases hlast : fgt (.val x) (ts.getD (ts.length - 1) 0) = true
  · rw [if_pos hlast]
    simp only [fgt, decide_eq_true_eq] at hlast
    constructor
    · intro h; omega
    · rintro ⟨-, hup⟩
      exfalso
      have : ts.getD i 0 ≤ ts.getD (ts.length - 1) 0 :=
        getD_le_getD_of_sorted hsort (by omega) (by omega)
      linarith
  · rw [if_neg hlast]
    constructor
    · intro h
      rcases foldl_select_cases (bandTest (.val x) ts) (fun j => j + 1)
          (List.range ts.length) 0 with h0 | ⟨j, hjmem, hfj, hres⟩
      · rw [h0] at h; omega
      · have hres' : (List.range ts.length).foldl
            (fun acc k => if bandTest (.val x) ts k then k + 1 else acc) 0 = j + 1 := by
          simpa using hres
        rw [hres'] at h
        have hji : j = i := by omega
        subst hji
        exact (bandTest_val_iff ts x j).1 hfj
    · intro hband
      have hbt : bandTest (.val x) ts i = true := (bandTest_val_iff ts x i).2 hband
      have := foldl_select_eq (bandTest (.val x) ts) (fun j => j + 1) (i + 1)
          (List.range ts.length) 0 ?_ (Or.inr ⟨i, List.mem_range.2 hi, hbt⟩)
      · simpa using this
      · intro j hjmem hfj
        have hj : j < ts.length := List.mem_range.1 hjmem
        rcases lt_trichotomy j i with hlt | rfl | hgt
        · exact absurd (bandTest_disjoint hsort hlt hi hfj hbt) (fun h => h)
        · rfl
        · exact absurd (bandTest_disjoint hsort hgt hj hbt hfj) (fun h => h)

/-- Category `n + 1` is assigned exactly when the depth exceeds the last
threshold, for sorted thresholds. -/
lemma classifyCell_val_top_iff (ts : List ℚ) (x : ℚ) :
    classifyCell (.val x) ts = ts.length + 1 ↔ ts.getD (ts.length - 1) 0 < x := by
  rw [classifyCell_eq_band]
  by_cases hlast : fgt (.val x) (ts.getD (ts.length - 1) 0) = true
  · rw [if_pos hlast]
    simp only [fgt, decide_eq_true_eq] at hlast
    exact ⟨fun _ => hlast, fun _ => rfl⟩
  · rw [if_neg hlast]
    simp only [fgt, decide_eq_true_eq] at hlast
    constructor
    · intro h
      exfalso
      rcases foldl_select_cases (bandTest (.val x) ts) (fun j => j + 1)
          (List.range ts.length) 0 with h0 | ⟨j, hjmem, -, hres⟩
      · rw [h0] at h; omega
      · have hres' : (List.range ts.length).foldl
            (fun acc k => if bandTest (.val x) ts k then k + 1 else acc) 0 = j + 1 := by
          simpa using hres
        rw [hres'] at h
        have := List.mem_range.1 hjmem
        omega
    · intro h; exact absurd h hlast

/-! ### Claims about the depth classifier -/

/-- C1 counterexample: the claim quantifies over every non-empty, strictly
ascending threshold list, but with the ascending list `[-1, 1]` a cell of
depth exactly `0` is assigned category `2` (band `(-1, 1]`), not category `0`
as the claim requires ("category 0 when depth equals 0"). -/
theorem C1_counterexample :
    List.Sorted (· < ·) [(-1 : ℚ), 1] ∧ ([(-1 : ℚ), 1] : List ℚ) ≠ [] ∧
    classify_flood_depth [[FVal.val 0]] [(-1 : ℚ), 1] = Except.ok [[2]] ∧
    (2 : ℕ) ≠ 0 :=
  ⟨by decide, by decide, rfl, by decide⟩

/-- C1 (amended): for every depth grid and every non-empty, strictly
ascending list of positive thresholds, `classify_flood_depth` assigns each
cell exactly one category in `{0, …, n+1}`: category `0` when the depth
equals `0`; category `i+1` exactly when
`thresholds[i-1] < depth <= thresholds[i]` (lower bound `0` when `i = 0`);
category `n+1` exactly when `depth > thresholds[n-1]`; and a cell whose
depth equals a threshold value lands in the band below that threshold. -/
theorem C1_classification_bands (grid : List (List FVal)) (ts : List ℚ)
    (hne : ts ≠ []) (hsort : List.Sorted (· < ·) ts) (hpos : ∀ t ∈ ts, 0 < t) :
    classify_flood_depth grid ts =
      Except.ok (grid.map (fun row => row.map (fun d => classifyCell d ts))) ∧
    ∀ x : ℚ,
      classifyCell (.val x) ts ≤ ts.length + 1 ∧
      (x = 0 → classifyCell (.val x) ts = 0) ∧
      (∀ i, i < ts.length →
        (classifyCell (.val x) ts = i + 1 ↔ bandLower ts i < x ∧ x ≤ ts.getD i 0)) ∧
      (classifyCell (.val x) ts = ts.length + 1 ↔ ts.getD (ts.length - 1) 0 < x) ∧
      (∀ i, i < ts.length → x = ts.getD i 0 → classifyCell (.val x) ts = i + 1) := by
  constructor
  · simp [classify_flood_depth, hne]
  · intro x
    refine ⟨classifyCell_le _ ts, ?_, ?_, classifyCell_val_top_iff ts x, ?_⟩
    · intro hx
      exact classifyCell_val_nonpos hpos (le_of_eq hx)
    · intro i hi
      exact classifyCell_val_band_iff hsort x hi
    · intro i hi hx
      refine (classifyCell_val_band_iff hsort x hi).2 ⟨?_, le_of_eq hx⟩
      subst hx
      by_cases h0 : i = 0
      · rw [bandLower, if_pos h0]
        exact getD_pos hpos hi
      · rw [bandLower, if_neg h0]
        exact getD_lt_getD_of_sorted hsort (by omega) hi

theorem C1_classification_bands_witness :
    classify_flood_depth [[FVal.val 1]] [1/2, 1, 2, 3] =
      Except.ok ([[FVal.val 1]].map (fun row =>
        row.map (fun d => classifyCell d [1/2, 1, 2, 3]))) ∧
    (classifyCell (.val 1) [1/2, 1, 2, 3] = 1 + 1 ↔
      bandLower [1/2, 1, 2, 3] 1 < 1 ∧ (1 : ℚ) ≤ [1/2, 1, 2, 3].getD 1 0) := by
  have h := C1_classification_bands [[FVal.val 1]] [1/2, 1, 2, 3]
    (by simp) (by norm_num [List.sorted_cons]) (by norm_num)
  exact ⟨h.1, (h.2 1).2.2.1 1 (by norm_num)⟩

/-- C3: `classify_flood_depth` returns a grid of the same shape as the input
depth grid (given a non-empty threshold list, without which it raises), with
every value an integer in `{0, …, len(thresholds)+1}`. -/
theorem C3_shape_and_range (grid : List (List FVal)) (ts : List ℚ) (hne : ts ≠ []) :
    ∃ out, classify_flood_depth grid ts = Except.ok out ∧
      out.length = grid.length ∧
      (∀ k, k < grid.length → (out.getD k []).length = (grid.getD k []).length) ∧
      (∀ row ∈ out, ∀ c ∈ row, c ≤ ts.length + 1) := by
  refine ⟨grid.map (fun row => row.map (fun d => classifyCell d ts)), ?_, by simp, ?_, ?_⟩
  · simp [classify_flood_depth, hne]
  · intro k hk
    rw [List.getD_eq_get _ _ (by simpa using hk), List.getD_eq_get _ _ hk, List.get_map]
    simp
  · intro row hrow c hc
    obtain ⟨row0, -, rfl⟩ := List.mem_map.1 hrow
    obtain ⟨d, -, rfl⟩ := List.mem_map.1 hc
    exact classifyCell_le d ts

theorem C3_shape_and_range_witness :
    ([(1 : ℚ), 2] : List ℚ) ≠ [] ∧
    (∃ out, classify_flood_depth [[FVal.val 1, FVal.nan], [FVal.val 3]] [1, 2] =
        Except.ok out ∧
      out.length = [[FVal.val 1, FVal.nan], [FVal.val 3]].length ∧
      (∀ k, k < [[FVal.val 1, FVal.nan], [FVal.val 3]].length →
        (out.getD k []).length = ([[FVal.val 1, FVal.nan], [FVal.val 3]].getD k []).length) ∧
      (∀ row ∈ out, ∀ c ∈ row, c ≤ [(1 : ℚ), 2].length + 1)) :=
  ⟨by decide, C3_shape_and_range [[FVal.val 1, FVal.nan], [FVal.val 3]] [1, 2] (by decide)⟩

/-- C4: a cell whose depth is negative or NaN keeps its zero-initialized
default category `0` ("no flood"): no band test matches it (NaN comparisons
are false in every test), so a single-cell grid with such a depth classifies
to `[[0]]`. -/
theorem C4_negative_nan_cells (ts : List ℚ) (hne : ts ≠ [])
    (hpos : ∀ t ∈ ts, 0 < t) (d : FVal)
    (hd : d = FVal.nan ∨ ∃ x, d = FVal.val x ∧ x < 0) :
    classifyCell d ts = 0 ∧
    classify_flood_depth [[d]] ts = Except.ok [[0]] ∧
    (∀ q : ℚ, fgt FVal.nan q = false ∧ fle FVal.nan q = false) ∧
    feq0 FVal.nan = false := by
  have h0 : classifyCell d ts = 0 := by
    rcases hd with rfl | ⟨x, rfl, hx⟩
    · exact classifyCell_nan ts
    · exact classifyCell_val_nonpos hpos (le_of_lt hx)
  refine ⟨h0, ?_, fun q => ⟨rfl, rfl⟩, rfl⟩
  simp [classify_flood_depth, hne, h0]

theorem C4_negative_nan_cells_witness :
    classifyCell (FVal.val (-3/2)) [1/2, 1, 2, 3] = 0 ∧
    classify_flood_depth [[FVal.val (-3/2)]] [1/2, 1, 2, 3] = Except.ok [[0]] ∧
    (∀ q : ℚ, fgt FVal.nan q = false ∧ fle FVal.nan q = false) ∧
    feq0 FVal.nan = false :=
  C4_negative_nan_cells [1/2, 1, 2, 3] (by simp) (by norm_num)
    (FVal.val (-3/2)) (Or.inr ⟨-3/2, rfl, by norm_num⟩)

/-- C10: calling `classify_flood_depth` with an empty threshold list hits the
`thresholds[-1]` indexing of the final masked assignment (the per-threshold
loop body never executes) and raises an uncaught `IndexError`; no category
grid is returned and no `ConfigurationError`-style validation happens. -/
theorem C10_empty_thresholds_index_error (grid : List (List FVal)) :
    classify_flood_depth grid [] = Except.error "IndexError: list index out of range" :=
  rfl

/-! ### The zonal aggregator `calculate_flood_area_by_village` -/

/-- Observable I/O steps of one aggregation run, in the order the source
performs them: `gpd.read_file` on the shapefile, `rasterio.open`,
`src.read(1)` (the raster band read), then one `mask(src, …)` call per
polygon inside the loop. -/
inductive Ev where
  | readVillages : Ev
  | openRaster : Ev
  | readBand : Ev
  | clipPolygon : ℕ → Ev
deriving DecidableEq

/-- The raster collaborator: the full first band (`src.read(1)`) and the
affine transform scales `transform.a` and `transform.e`. -/
structure Raster where
  band : List (List FVal)
  ta : ℚ
  te : ℚ

/-- One polygon record from the shapefile: a geometry handle (used as the
key the injected clipping collaborator is queried with) plus the optional
`ADM3_EN` / `ADM3_TH` attributes read with `village.get`. -/
structure Village where
  geomId : ℕ
  adm3_en : Option String
  adm3_th : Option String

/-- One output record: the id and name fields, then the area fields of the
result dictionary in insertion order. -/
structure ResultRow where
  vid : String ⊕ ℕ
  vname : String
  fields : List (String × ℚ)
deriving DecidableEq

def defVillage : Village := ⟨0, none, none⟩

def defRow : ResultRow := ⟨Sum.inr 0, "", []⟩

/-- Pixel area: `pixel_area_m2 = abs(transform.a * transform.e)`. -/
def pixelAreaM2 (r : Raster) : ℚ := |r.ta * r.te|

/-- The `if unit == … / elif … / else raise ValueError` dispatch of the
source: resolved pixel area (map-units² divided per unit) and the column
suffix. -/
def unitResolve (unit : String) (pam2 : ℚ) : Except String (ℚ × String) :=
  if unit = "m2" then .ok (pam2, " (m²)")
  else if unit = "km2" then .ok (pam2 / 1000000, " (km²)")
  else if unit = "hectare" then .ok (pam2 / 10000, " (hectares)")
  else if unit = "rai" then .ok (pam2 / 1600, " (rai)")
  else .error "ValueError: Unit must be one of m2, km2, hectare, rai"

/-- Lookup `village.get(ADM3_EN, idx)`: attribute value, or the positional index. -/
def vidOf (v : Village) (idx : ℕ) : String ⊕ ℕ :=
  match v.adm3_en with
  | some s => Sum.inl s
  | none => Sum.inr idx

/-- Lookup `village.get(ADM3_TH, ...)`: attribute value, or the synthesized
name `Village_{idx}`. -/
def vnameOf (v : Village) (idx : ℕ) : String :=
  match v.adm3_th with
  | some s => s
  | none => "Village_" ++ toString idx

/-- Count `np.sum(mask over the classified grid)`: the number of cells of
the 2-D grid satisfying `p`. -/
def countP (g : List (List ℕ)) (p : ℕ → Bool) : ℕ :=
  (g.map (fun row => (row.filter p).length)).sum

/-- The dynamic threshold-based fields added in the aggregator loop: for
`i = 0` the name is `f'0-{threshold} m{unit_suffix}'`, otherwise
`f'{thresholds[i-1]}-{threshold}m{unit_suffix}'` (note: no space before `m`);
the value is `np.sum(masked_classified == i + 1) * pixel_area`.
`pyStr` renders a Python float into its f-string text. -/
def bandFields (ts : List ℚ) (classified : List (List ℕ)) (pa : ℚ)
    (suffix : String) (pyStr : ℚ → String) : List (String × ℚ) :=
  (List.range ts.length).map (fun i =>
    let name :=
      if i = 0 then "0-" ++ pyStr (ts.getD i 0) ++ " m" ++ suffix
      else pyStr (ts.getD (i - 1) 0) ++ "-" ++ pyStr (ts.getD i 0) ++ "m" ++ suffix
    (name, (countP classified (fun c => decide (c = i + 1)) : ℚ) * pa))

/-- The `village_result` dictionary for one polygon, in insertion order:
`village_id`, `village_name`, `total_area`, `no_flood_area`, the per-band
fields, the `>{thresholds[-1]} m` field, and `total_flooded_area`. -/
def villageResult (v : Village) (idx : ℕ) (classified : List (List ℕ))
    (ts : List ℚ) (pa : ℚ) (suffix : String) (pyStr : ℚ → String) : ResultRow :=
  { vid := vidOf v idx
    vname := vnameOf v idx
    fields :=
      ("total_area" ++ suffix, (countP classified (fun c => decide (0 ≤ c)) : ℚ) * pa) ::
      ("no_flood_area" ++ suffix, (countP classified (fun c => decide (c = 0)) : ℚ) * pa) ::
      (bandFields ts classified pa suffix pyStr ++
        [(">" ++ pyStr (ts.getD (ts.length - 1) 0) ++ " m" ++ suffix,
            (countP classified (fun c => decide (c = ts.length + 1)) : ℚ) * pa),
          ("total_flooded_area" ++ suffix,
            (countP classified (fun c => decide (0 < c)) : ℚ) * pa)]) }

/-- The `for idx, village in villages_gdf.iterrows()` loop: per polygon,
call the clipping collaborator (`mask(src, village_geom, crop=True)`),
classify the clipped grid, and append one result record.  An exception from
the collaborator or from `classify_flood_depth` propagates and aborts the
remainder of the run (there is no try/except in the source).  The clip
events mark which polygons were processed. -/
def aggLoop (clip : ℕ → Except String (List (List FVal))) (ts : List ℚ)
    (pa : ℚ) (suffix : String) (pyStr : ℚ → String) :
    List Village → ℕ → List Ev × Except String (List ResultRow)
  | [], _ => ([], .ok [])
  | v :: rest, idx =>
    match clip v.geomId with
    | .error e => ([Ev.clipPolygon idx], .error e)
    | .ok grid =>
      match classify_flood_depth grid ts with
      | .error e => ([Ev.clipPolygon idx], .error e)
      | .ok classified =>
        let row := villageResult v idx classified ts pa suffix pyStr
        let rec_rest := aggLoop clip ts pa suffix pyStr rest (idx + 1)
        (Ev.clipPolygon idx :: rec_rest.1, rec_rest.2.map (fun rows => row :: rows))

/-- The function `calculate_flood_area_by_village(flood_raster_path, villages_shapefile_path,
thresholds, unit)`, with the I/O collaborators injected: the shapefile read,
the raster open and the band read (`flood_data = src.read(1)`) happen first,
then the pixel area and unit dispatch (raising `ValueError` on an unknown
unit), then the per-polygon loop.  Returns the event trace together with the
result table (or the propagated exception). -/
def calculate_flood_area_by_village (clip : ℕ → Except String (List (List FVal)))
    (raster : Raster) (villages : List Village) (thresholds : List ℚ)
    (unit : String) (pyStr : ℚ → String) :
    List Ev × Except String (List ResultRow) :=
  match unitResolve unit (pixelAreaM2 raster) with
  | .error e => ([Ev.readVillages, Ev.openRaster, Ev.readBand], .error e)
  | .ok pas =>
    let res := aggLoop clip thresholds pas.1 pas.2 pyStr villages 0
    ([Ev.readVillages, Ev.openRaster, Ev.readBand] ++ res.1, res.2)

/-- Anatomy of a successful pass of the aggregation loop: one record per
polygon, in iteration order; record `k` was built by `villageResult` from
the classified clip of polygon `k`; the clip events are in index order. -/
lemma aggLoop_ok_spec (clip : ℕ → Except String (List (List FVal))) (ts : List ℚ)
    (pa : ℚ) (suffix : String) (pyStr : ℚ → String) :
    ∀ (vs : List Village) (idx : ℕ) (rows : List ResultRow),
      (aggLoop clip ts pa suffix pyStr vs idx).2 = .ok rows →
      rows.length = vs.length ∧
      (aggLoop clip ts pa suffix pyStr vs idx).1 =
        (List.range vs.length).map (fun k => Ev.clipPolygon (idx + k)) ∧
      ∀ k, k < vs.length →
        ∃ grid classified,
          clip (vs.getD k defVillage).geomId = .ok grid ∧
          classify_flood_depth grid ts = .ok classified ∧
          rows.getD k defRow =
            villageResult (vs.getD k defVillage) (idx + k) classified ts pa suffix pyStr := by
  intro vs
  induction vs with
  | nil =>
    intro idx rows h
    simp only [aggLoop] at h
    have hrows : rows = [] := by
      cases rows with
      | nil => rfl
      | cons a l => exact absurd h (by simp)
    subst hrows
    exact ⟨rfl, by simp [aggLoop], fun k hk => absurd hk (by simp)⟩
  | cons v rest ih =>
    intro idx rows h
    cases hc : clip v.geomId with
    | error e => rw [aggLoop] at h; rw [hc] at h; exact absurd h (by simp)
    | ok grid =>
      cases hcl : classify_flood_depth grid ts with
      | error e =>
        rw [aggLoop] at h; rw [hc] at h
        simp only [hcl] at h
        exact absurd h (by simp)
      | ok classified =>
        rw [aggLoop] at h; rw [hc] at h
        simp only [hcl] at h
        cases ht : (aggLoop clip ts pa suffix pyStr rest (idx + 1)).2 with
        | error e => rw [ht] at h; exact absurd h (by simp [Except.map])
        | ok trows =>
          rw [ht] at h
          simp only [Except.map, Except.ok.injEq] at h
          obtain ⟨hlen, hevs, hcells⟩ := ih (idx + 1) trows ht
          subst h
          refine ⟨by simp [hlen], ?_, ?_⟩
          · rw [aggLoop]; rw [hc]
            simp only [hcl]
            show Ev.clipPolygon idx :: (aggLoop clip ts pa suffix pyStr rest (idx + 1)).1 = _
            rw [hevs, List.length_cons, List.range_succ_eq_map]
            simp only [List.map_cons, List.map_map, Nat.add_zero, List.cons.injEq]
            refine ⟨by trivial, List.map_congr_left ?_⟩
            intro k _
            simp only [Function.comp_apply]
            congr 1
            omega
          · intro k hk
            cases k with
            | zero =>
              refine ⟨grid, classified, ?_, hcl, ?_⟩
              · simpa [List.getD_cons_zero] using hc
              · simp [List.getD_cons_zero]
            | succ j =>
              obtain ⟨g2, c2, h1, h2, h3⟩ := hcells j (by simpa using hk)
              have hadd : (idx + 1) + j = idx + (j + 1) := by omega
              rw [hadd] at h3
              exact ⟨g2, c2, by simpa [List.getD_cons_succ] using h1, h2,
                by simpa [List.getD_cons_succ] using h3⟩

/-- Anatomy of a successful aggregator run. -/
lemma calculate_ok_spec (clip : ℕ → Except String (List (List FVal)))
    (raster : Raster) (vs : List Village) (ts : List ℚ) (unit : String)
    (pyStr : ℚ → String) (tr : List Ev) (rows : List ResultRow)
    (h : calculate_flood_area_by_village clip raster vs ts unit pyStr = (tr, .ok rows)) :
    ∃ pa suffix, unitResolve unit (pixelAreaM2 raster) = .ok (pa, suffix) ∧
      tr = [Ev.readVillages, Ev.openRaster, Ev.readBand] ++
        (List.range vs.length).map (fun k => Ev.clipPolygon k) ∧
      rows.length = vs.length ∧
      ∀ k, k < vs.length →
        ∃ grid classified,
          clip (vs.getD k defVillage).geomId = .ok grid ∧
          classify_flood_depth grid ts = .ok classified ∧
          rows.getD k defRow =
            villageResult (vs.getD k defVillage) k classified ts pa suffix pyStr := by
  cases hres : unitResolve unit (pixelAreaM2 raster) with
  | error e =>
    rw [calculate_flood_area_by_village] at h
    rw [hres] at h
    exact absurd (congrArg Prod.snd h) (by simp)
  | ok pas =>
    obtain ⟨pa, suffix⟩ := pas
    rw [calculate_flood_area_by_village] at h
    rw [hres] at h
    have h1 : [Ev.readVillages, Ev.openRaster, Ev.readBand] ++
        (aggLoop clip ts pa suffix pyStr vs 0).1 = tr := congrArg Prod.fst h
    have h2 : (aggLoop clip ts pa suffix pyStr vs 0).2 = .ok rows := congrArg Prod.snd h
    obtain ⟨hlen, hevs, hcells⟩ := aggLoop_ok_spec clip ts pa suffix pyStr vs 0 rows h2
    refine ⟨pa, suffix, rfl, ?_, hlen, ?_⟩
    · rw [← h1, hevs]
      simp
    · intro k hk
      obtain ⟨g, c, ha, hb, hcEq⟩ := hcells k hk
      rw [Nat.zero_add] at hcEq
      exact ⟨g, c, ha, hb, hcEq⟩

/-! ### Structure of one record's area fields -/

/-- The per-category cell counts behind the area fields of one record, in
field order: all cells, no flood, bands `1..n`, `> last threshold`, flooded. -/
def fieldCounts (classified : List (List ℕ)) (ts : List ℚ) : List ℚ :=
  (countP classified (fun c => decide (0 ≤ c)) : ℚ) ::
    (countP classified (fun c => decide (c = 0)) : ℚ) ::
    ((List.range ts.length).map
        (fun i => (countP classified (fun c => decide (c = i + 1)) : ℚ)) ++
      [(countP classified (fun c => decide (c = ts.length + 1)) : ℚ),
        (countP classified (fun c => decide (0 < c)) : ℚ)])

lemma villageResult_fields_snd (v : Village) (idx : ℕ)
    (classified : List (List ℕ)) (ts : List ℚ) (pa : ℚ) (suffix : String)
    (pyStr : ℚ → String) :
    (villageResult v idx classified ts pa suffix pyStr).fields.map Prod.snd =
      (fieldCounts classified ts).map (fun c => c * pa) := by
  simp [villageResult, fieldCounts, bandFields, List.map_map, Function.comp]

lemma villageResult_fields_length (v : Village) (idx : ℕ)
    (classified : List (List ℕ)) (ts : List ℚ) (pa : ℚ) (suffix : String)
    (pyStr : ℚ → String) :
    (villageResult v idx classified ts pa suffix pyStr).fields.length =
      ts.length + 4 := by
  simp [villageResult, bandFields]

lemma getD_fields_snd (l : List (String × ℚ)) :
    ∀ j, (l.getD j ("", 0)).2 = (l.map Prod.snd).getD j 0 := by
  induction l with
  | nil => intro j; cases j <;> simp
  | cons x xs ih =>
    intro j
    cases j with
    | zero => simp
    | succ j => simpa using ih j

lemma getD_map_mul (l : List ℚ) (pa : ℚ) :
    ∀ j, (l.map (fun c => c * pa)).getD j 0 = l.getD j 0 * pa := by
  induction l with
  | nil => intro j; cases j <;> simp
  | cons x xs ih =>
    intro j
    cases j with
    | zero => simp
    | succ j => simpa using ih j

/-! ### Counting lemmas -/

/-- Count `np.sum(classified >= 0)`: every cell of the grid. -/
lemma countP_ge0 (g : List (List ℕ)) :
    countP g (fun c => decide (0 ≤ c)) = (g.map List.length).sum := by
  unfold countP
  congr 1
  apply List.map_congr_left
  intro row _
  congr 1
  apply List.filter_eq_self.2
  intro c _
  simp

/-- Counting a list by exact value, summed over all values below a bound
that dominates the list, counts the whole list. -/
lemma sum_count_filter (l : List ℕ) (m : ℕ) (h : ∀ c ∈ l, c < m) :
    ∑ i ∈ Finset.range m, (l.filter (fun c => decide (c = i))).length = l.length := by
  induction l with
  | nil => simp
  | cons x xs ih =>
    have hx : x < m := h x (List.mem_cons_self x xs)
    have ihh := ih (fun c hc => h c (List.mem_cons_of_mem x hc))
    have hterm : ∀ i, ((x :: xs).filter (fun c => decide (c = i))).length =
        (if x = i then 1 else 0) + (xs.filter (fun c => decide (c = i))).length := by
      intro i
      by_cases hxi : x = i <;> simp [List.filter_cons, hxi] <;> omega
    calc ∑ i ∈ Finset.range m, ((x :: xs).filter (fun c => decide (c = i))).length
        = ∑ i ∈ Finset.range m,
            ((if x = i then 1 else 0) + (xs.filter (fun c => decide (c = i))).length) :=
          Finset.sum_congr rfl (fun i _ => hterm i)
      _ = (∑ i ∈ Finset.range m, if x = i then 1 else 0) +
            ∑ i ∈ Finset.range m, (xs.filter (fun c => decide (c = i))).length :=
          Finset.sum_add_distrib
      _ = 1 + xs.length := by
          rw [ihh, Finset.sum_ite_eq, if_pos (Finset.mem_range.2 hx)]
      _ = (x :: xs).length := by simp [Nat.add_comm]

/-- Grid-level version of `sum_count_filter`. -/
lemma sum_countP (g : List (List ℕ)) (m : ℕ)
    (h : ∀ row ∈ g, ∀ c ∈ row, c < m) :
    ∑ i ∈ Finset.range m, countP g (fun c => decide (c = i)) =
      (g.map List.length).sum := by
  induction g with
  | nil => simp [countP]
  | cons row rest ih =>
    have hrow := h row (List.mem_cons_self row rest)
    have ihh := ih (fun r hr => h r (List.mem_cons_of_mem row hr))
    simp only [countP, List.map_cons, List.sum_cons]
    rw [Finset.sum_add_distrib, sum_count_filter row m hrow]
    simp only [countP] at ihh
    rw [ihh]

/-- Cells are either category `0` or positive: the two counts split the
total cell count. -/
lemma countP_zero_add_pos (g : List (List ℕ)) :
    countP g (fun c => decide (c = 0)) + countP g (fun c => decide (0 < c)) =
      countP g (fun c => decide (0 ≤ c)) := by
  rw [countP_ge0]
  induction g with
  | nil => rfl
  | cons row rest ih =>
    simp only [countP, List.map_cons, List.sum_cons] at ih ⊢
    have hcompl := List.length_eq_length_filter_add (l := row)
      (fun c => decide (c = 0))
    have hsame : (row.filter (fun c => !(decide (c = 0)))).length =
        (row.filter (fun c => decide (0 < c))).length := by
      congr 1
      apply List.filter_congr
      intro c _
      cases c <;> simp
    omega

/-- Every cell of a successfully classified grid is below `len + 2`. -/
lemma classify_cells_lt {grid : List (List FVal)} {ts : List ℚ}
    {classified : List (List ℕ)}
    (h : classify_flood_depth grid ts = .ok classified) :
    ∀ row ∈ classified, ∀ c ∈ row, c < ts.length + 2 := by
  unfold classify_flood_depth at h
  by_cases hts : ts.isEmpty
  · rw [if_pos hts] at h; exact absurd h (by simp)
  · rw [if_neg hts] at h
    simp only [Except.ok.injEq] at h
    subst h
    intro row hrow c hc
    obtain ⟨r0, -, rfl⟩ := List.mem_map.1 hrow
    obtain ⟨d, -, rfl⟩ := List.mem_map.1 hc
    have := classifyCell_le d ts
    omega

lemma list_range_map_sum (n : ℕ) (f : ℕ → ℚ) :
    ((List.range n).map f).sum = ∑ i ∈ Finset.range n, f i := by
  induction n with
  | zero => simp
  | succ m ih =>
    rw [List.range_succ, List.map_append, List.sum_append, Finset.sum_range_succ, ih]
    simp

/-! ### Positional accessors for the area fields of one record -/

/-- Field `total_area`: third entry of the record dictionary (after id and name it
is the first area field). -/
def totalAreaOf (row : ResultRow) : ℚ := (row.fields.getD 0 ("", 0)).2

/-- Field `no_flood_area`. -/
def noFloodAreaOf (row : ResultRow) : ℚ := (row.fields.getD 1 ("", 0)).2

/-- The `n + 1` band areas (the `n` threshold bands plus the
`> last threshold` band), in threshold order. -/
def bandAreasOf (row : ResultRow) (n : ℕ) : List ℚ :=
  ((row.fields.drop 2).take (n + 1)).map Prod.snd

/-- Field `total_flooded_area`: the last area field. -/
def floodedAreaOf (row : ResultRow) (n : ℕ) : ℚ :=
  (row.fields.getD (n + 3) ("", 0)).2

lemma villageResult_totalArea (v : Village) (idx : ℕ)
    (classified : List (List ℕ)) (ts : List ℚ) (pa : ℚ) (suffix : String)
    (pyStr : ℚ → String) :
    totalAreaOf (villageResult v idx classified ts pa suffix pyStr) =
      (countP classified (fun c => decide (0 ≤ c)) : ℚ) * pa := by
  simp [totalAreaOf, villageResult]

lemma villageResult_noFloodArea (v : Village) (idx : ℕ)
    (classified : List (List ℕ)) (ts : List ℚ) (pa : ℚ) (suffix : String)
    (pyStr : ℚ → String) :
    noFloodAreaOf (villageResult v idx classified ts pa suffix pyStr) =
      (countP classified (fun c => decide (c = 0)) : ℚ) * pa := by
  simp [noFloodAreaOf, villageResult]

lemma villageResult_bandAreas (v : Village) (idx : ℕ)
    (classified : List (List ℕ)) (ts : List ℚ) (pa : ℚ) (suffix : String)
    (pyStr : ℚ → String) :
    bandAreasOf (villageResult v idx classified ts pa suffix pyStr) ts.length =
      (List.range ts.length).map
        (fun i => (countP classified (fun c => decide (c = i + 1)) : ℚ) * pa) ++
      [(countP classified (fun c => decide (c = ts.length + 1)) : ℚ) * pa] := by
  unfold bandAreasOf
  rw [List.map_take, List.map_drop, villageResult_fields_snd]
  simp only [fieldCounts, List.map_cons, List.drop_succ_cons, List.drop_zero,
    List.map_append]
  rw [List.take_append_eq_append_take]
  have hlen : (((List.range ts.length).map
      (fun i => (countP classified (fun c => decide (c = i + 1)) : ℚ))).map
        (fun c => c * pa)).length = ts.length := by
    simp
  rw [List.take_all_of_le (by rw [hlen]; omega)]
  have h1 : ts.length + 1 - (((List.range ts.length).map
      (fun i => (countP classified (fun c => decide (c = i + 1)) : ℚ))).map
        (fun c => c * pa)).length = 1 := by
    rw [hlen]; omega
  rw [h1]
  simp [Function.comp]

lemma villageResult_floodedArea (v : Village) (idx : ℕ)
    (classified : List (List ℕ)) (ts : List ℚ) (pa : ℚ) (suffix : String)
    (pyStr : ℚ → String) :
    floodedAreaOf (villageResult v idx classified ts pa suffix pyStr) ts.length =
      (countP classified (fun c => decide (0 < c)) : ℚ) * pa := by
  unfold floodedAreaOf
  rw [getD_fields_snd, villageResult_fields_snd]
  simp only [fieldCounts, List.map_cons, List.map_append, List.map_map]
  rw [List.getD_cons_succ, List.getD_cons_succ]
  rw [List.getD_append_right _ _ _ _ (by simp)]
  simp

/-- Conservation of counts: no-flood plus all band counts equals the total
cell count, once every cell is a valid category. -/
lemma fieldCounts_conservation (classified : List (List ℕ)) (ts : List ℚ)
    (hb : ∀ row ∈ classified, ∀ c ∈ row, c < ts.length + 2) :
    (countP classified (fun c => decide (c = 0)) : ℚ) +
      (((List.range ts.length).map
        (fun i => (countP classified (fun c => decide (c = i + 1)) : ℚ))).sum +
        (countP classified (fun c => decide (c = ts.length + 1)) : ℚ)) =
      (countP classified (fun c => decide (0 ≤ c)) : ℚ) := by
  have hnat := sum_countP classified (ts.length + 2) hb
  rw [← countP_ge0] at hnat
  rw [Finset.sum_range_succ, Finset.sum_range_succ'] at hnat
  have hcast := congrArg (fun x : ℕ => (x : ℚ)) hnat
  push_cast at hcast
  rw [list_range_map_sum]
  linarith

lemma villageResult_fields_fst (v : Village) (idx : ℕ)
    (classified : List (List ℕ)) (ts : List ℚ) (pa : ℚ) (suffix : String)
    (pyStr : ℚ → String) :
    (villageResult v idx classified ts pa suffix pyStr).fields.map Prod.fst =
      ("total_area" ++ suffix) :: ("no_flood_area" ++ suffix) ::
      ((List.range ts.length).map (fun i =>
        if i = 0 then "0-" ++ pyStr (ts.getD i 0) ++ " m" ++ suffix
        else pyStr (ts.getD (i - 1) 0) ++ "-" ++ pyStr (ts.getD i 0) ++ "m" ++ suffix) ++
      [">" ++ pyStr (ts.getD (ts.length - 1) 0) ++ " m" ++ suffix,
        "total_flooded_area" ++ suffix]) := by
  unfold villageResult bandFields
  simp only [List.map_cons, List.map_append, List.map_map, List.map_nil]
  refine congrArg₂ List.cons rfl (congrArg₂ List.cons rfl
    (congrArg₂ (fun a b => a ++ b) ?_ rfl))
  apply List.map_congr_left
  intro i _
  by_cases hi : i = 0 <;> simp [Function.comp, hi]

lemma villageResult_vid (v : Village) (idx : ℕ) (classified : List (List ℕ))
    (ts : List ℚ) (pa : ℚ) (suffix : String) (pyStr : ℚ → String) :
    (villageResult v idx classified ts pa suffix pyStr).vid = vidOf v idx := rfl

lemma villageResult_vname (v : Village) (idx : ℕ) (classified : List (List ℕ))
    (ts : List ℚ) (pa : ℚ) (suffix : String) (pyStr : ℚ → String) :
    (villageResult v idx classified ts pa suffix pyStr).vname = vnameOf v idx := rfl

/-- The fixed divisor table of the spec, `{m2: 1, km2: 1e6, hectare: 1e4,
rai: 1600}`. -/
def unitFactor : String → ℚ
  | "m2" => 1
  | "km2" => 1000000
  | "hectare" => 10000
  | "rai" => 1600
  | _ => 1

lemma unitResolve_ok_pa {unit : String} {pam2 pa : ℚ} {suffix : String}
    (h : unitResolve unit pam2 = .ok (pa, suffix)) :
    pa = pam2 / unitFactor unit ∧ unitFactor unit ≠ 0 := by
  unfold unitResolve at h
  by_cases h1 : unit = "m2"
  · subst h1
    rw [if_pos rfl] at h
    simp only [Except.ok.injEq, Prod.mk.injEq] at h
    rw [← h.1]
    norm_num [unitFactor]
  · rw [if_neg h1] at h
    by_cases h2 : unit = "km2"
    · subst h2
      rw [if_pos rfl] at h
      simp only [Except.ok.injEq, Prod.mk.injEq] at h
      rw [← h.1]
      norm_num [unitFactor]
    · rw [if_neg h2] at h
      by_cases h3 : unit = "hectare"
      · subst h3
        rw [if_pos rfl] at h
        simp only [Except.ok.injEq, Prod.mk.injEq] at h
        rw [← h.1]
        norm_num [unitFactor]
      · rw [if_neg h3] at h
        by_cases h4 : unit = "rai"
        · subst h4
          rw [if_pos rfl] at h
          simp only [Except.ok.injEq, Prod.mk.injEq] at h
          rw [← h.1]
          norm_num [unitFactor]
        · rw [if_neg h4] at h
          exact absurd h (by simp)

/-- Every count over the empty (zero-overlap) grid is zero. -/
lemma fieldCounts_nil (ts : List ℚ) : ∀ c ∈ fieldCounts [] ts, c = 0 := by
  intro c hc
  simp only [fieldCounts, countP, List.map_nil, List.sum_nil, Nat.cast_zero] at hc
  rcases List.mem_cons.1 hc with rfl | hc
  · rfl
  rcases List.mem_cons.1 hc with rfl | hc
  · rfl
  rcases List.mem_append.1 hc with hc | hc
  · obtain ⟨i, -, rfl⟩ := List.mem_map.1 hc
    rfl
  rcases List.mem_cons.1 hc with rfl | hc
  · rfl
  rcases List.mem_cons.1 hc with rfl | hc
  · rfl
  exact absurd hc (List.not_mem_nil c)

/-- Value of area field `j` of one record: the `j`-th category count times
the resolved pixel area. -/
lemma villageResult_getD_snd (v : Village) (idx : ℕ)
    (classified : List (List ℕ)) (ts : List ℚ) (pa : ℚ) (suffix : String)
    (pyStr : ℚ → String) (j : ℕ) :
    ((villageResult v idx classified ts pa suffix pyStr).fields.getD j ("", 0)).2 =
      (fieldCounts classified ts).getD j 0 * pa := by
  rw [getD_fields_snd, villageResult_fields_snd, getD_map_mul]

/-! ### Claims about the zonal aggregator -/

/-- C2: for every polygon record of one successful aggregation run,
`no_flood_area + sum(band areas) = total_area` (the `n` threshold bands plus
the `>last` band) and `total_flooded_area = total_area - no_flood_area`,
where `total_area` counts every cell of the clipped grid. -/
theorem C2_area_conservation (clip : ℕ → Except String (List (List FVal)))
    (raster : Raster) (vs : List Village) (ts : List ℚ) (unit : String)
    (pyStr : ℚ → String) (tr : List Ev) (rows : List ResultRow)
    (hrun : calculate_flood_area_by_village clip raster vs ts unit pyStr =
      (tr, .ok rows))
    (k : ℕ) (hk : k < rows.length) :
    noFloodAreaOf (rows.getD k defRow) +
        (bandAreasOf (rows.getD k defRow) ts.length).sum =
      totalAreaOf (rows.getD k defRow) ∧
    floodedAreaOf (rows.getD k defRow) ts.length =
      totalAreaOf (rows.getD k defRow) - noFloodAreaOf (rows.getD k defRow) := by
  obtain ⟨pa, suffix, -, -, hlen, hcells⟩ :=
    calculate_ok_spec clip raster vs ts unit pyStr tr rows hrun
  obtain ⟨grid, classified, -, hcl, hrowEq⟩ := hcells k (by omega)
  rw [hrowEq]
  have hb := classify_cells_lt hcl
  rw [villageResult_totalArea, villageResult_noFloodArea, villageResult_bandAreas,
    villageResult_floodedArea]
  constructor
  · rw [List.sum_append, List.sum_map_mul_right, List.sum_cons, List.sum_nil]
    have hcons := fieldCounts_conservation classified ts hb
    linear_combination pa * hcons
  · have hnat := countP_zero_add_pos classified
    have hcast := congrArg (fun x : ℕ => (x : ℚ)) hnat
    push_cast at hcast
    linear_combination pa * hcast

/-! Concrete fixtures for the closed instances below. -/

def exClip : ℕ → Except String (List (List FVal)) := fun _ => .ok [[FVal.val 1]]

def exRaster : Raster := ⟨[[FVal.val 1]], 40, -40⟩

def exVillage : Village := ⟨0, some "V1", some "Ban A"⟩

def exPyStr : ℚ → String := fun q => if q = 1 then "1.0" else if q = 2 then "2.0" else "x"

def exRunM2 : List Ev × Except String (List ResultRow) :=
  calculate_flood_area_by_village exClip exRaster [exVillage] [1, 2] "m2" exPyStr

def exRowsM2 : List ResultRow := exRunM2.2.toOption.getD []

def exRunRai : List Ev × Except String (List ResultRow) :=
  calculate_flood_area_by_village exClip exRaster [exVillage] [1, 2] "rai" exPyStr

def exRowsRai : List ResultRow := exRunRai.2.toOption.getD []

theorem C2_area_conservation_witness :
    noFloodAreaOf (exRowsM2.getD 0 defRow) +
        (bandAreasOf (exRowsM2.getD 0 defRow) 2).sum =
      totalAreaOf (exRowsM2.getD 0 defRow) ∧
    floodedAreaOf (exRowsM2.getD 0 defRow) 2 =
      totalAreaOf (exRowsM2.getD 0 defRow) - noFloodAreaOf (exRowsM2.getD 0 defRow) :=
  C2_area_conservation exClip exRaster [exVillage] [1, 2] "m2" exPyStr
    exRunM2.1 exRowsM2 rfl 0 (by decide)

/-- C9: the aggregator is deterministic and order-preserving: on a
successful run there is exactly one output record per input polygon, record
`k` carries the id/name of polygon `k` (input iteration order, no
reordering), the polygons are clipped in index order, and the whole run is a
pure function of its inputs (equal inputs give equal outputs). -/
theorem C9_determinism_row_order (clip : ℕ → Except String (List (List FVal)))
    (raster : Raster) (vs : List Village) (ts : List ℚ) (unit : String)
    (pyStr : ℚ → String) (tr : List Ev) (rows : List ResultRow)
    (hrun : calculate_flood_area_by_village clip raster vs ts unit pyStr =
      (tr, .ok rows)) :
    rows.length = vs.length ∧
    (∀ k, k < vs.length →
      (rows.getD k defRow).vid = vidOf (vs.getD k defVillage) k ∧
      (rows.getD k defRow).vname = vnameOf (vs.getD k defVillage) k) ∧
    tr = [Ev.readVillages, Ev.openRaster, Ev.readBand] ++
      (List.range vs.length).map (fun k => Ev.clipPolygon k) ∧
    ∀ clip2 raster2 vs2 ts2 unit2 pyStr2,
      clip2 = clip → raster2 = raster → vs2 = vs → ts2 = ts → unit2 = unit →
      pyStr2 = pyStr →
      calculate_flood_area_by_village clip2 raster2 vs2 ts2 unit2 pyStr2 =
        calculate_flood_area_by_village clip raster vs ts unit pyStr := by
  obtain ⟨pa, suffix, -, htr, hlen, hcells⟩ :=
    calculate_ok_spec clip raster vs ts unit pyStr tr rows hrun
  refine ⟨hlen, ?_, htr, ?_⟩
  · intro k hk
    obtain ⟨g, c, -, -, hEq⟩ := hcells k hk
    rw [hEq]
    exact ⟨villageResult_vid _ _ _ _ _ _ _, villageResult_vname _ _ _ _ _ _ _⟩
  · intro clip2 raster2 vs2 ts2 unit2 pyStr2 h1 h2 h3 h4 h5 h6
    rw [h1, h2, h3, h4, h5, h6]

theorem C9_determinism_row_order_witness :
    exRowsM2.length = [exVillage].length ∧
    (exRowsM2.getD 0 defRow).vid = vidOf ([exVillage].getD 0 defVillage) 0 ∧
    exRunM2.1 = [Ev.readVillages, Ev.openRaster, Ev.readBand] ++
      (List.range [exVillage].length).map (fun k => Ev.clipPolygon k) := by
  have h := C9_determinism_row_order exClip exRaster [exVillage] [1, 2] "m2"
    exPyStr exRunM2.1 exRowsM2 rfl
  exact ⟨h.1, (h.2.1 0 (by norm_num)).1, h.2.2.1⟩

/-- C5 counterexample: with the unknown unit token "acre" the run does fail
with the unit dispatch's `ValueError`, but the raster band *was* read before
the failure (`Ev.readBand` is in the failing run's trace), refuting "no
raster band is read". -/
theorem C5_counterexample :
    (calculate_flood_area_by_village exClip exRaster [exVillage] [1, 2] "acre"
        exPyStr).2 =
      .error "ValueError: Unit must be one of m2, km2, hectare, rai" ∧
    Ev.readBand ∈
      (calculate_flood_area_by_village exClip exRaster [exVillage] [1, 2] "acre"
        exPyStr).1 :=
  ⟨rfl, by decide⟩

/-- C5 (amended): a unit token outside `{m2, km2, hectare, rai}` makes
`calculate_flood_area_by_village` fail with the `ValueError` of the unit
dispatch (the realization of the spec's configuration error) — but only
after the shapefile is loaded and the raster band is read; no polygon is
clipped or processed. -/
theorem C5_unknown_unit (clip : ℕ → Except String (List (List FVal)))
    (raster : Raster) (vs : List Village) (ts : List ℚ) (pyStr : ℚ → String)
    (unit : String)
    (hu : unit ≠ "m2" ∧ unit ≠ "km2" ∧ unit ≠ "hectare" ∧ unit ≠ "rai") :
    (calculate_flood_area_by_village clip raster vs ts unit pyStr).2 =
      .error "ValueError: Unit must be one of m2, km2, hectare, rai" ∧
    (calculate_flood_area_by_village clip raster vs ts unit pyStr).1 =
      [Ev.readVillages, Ev.openRaster, Ev.readBand] ∧
    Ev.readBand ∈ (calculate_flood_area_by_village clip raster vs ts unit pyStr).1 ∧
    ∀ k, Ev.clipPolygon k ∉
      (calculate_flood_area_by_village clip raster vs ts unit pyStr).1 := by
  obtain ⟨h1, h2, h3, h4⟩ := hu
  have hres : unitResolve unit (pixelAreaM2 raster) =
      .error "ValueError: Unit must be one of m2, km2, hectare, rai" := by
    unfold unitResolve
    rw [if_neg h1, if_neg h2, if_neg h3, if_neg h4]
  unfold calculate_flood_area_by_village
  rw [hres]
  refine ⟨rfl, rfl, by simp, ?_⟩
  intro k
  simp

theorem C5_unknown_unit_witness :
    (calculate_flood_area_by_village exClip exRaster [exVillage] [1, 2] "hect"
        exPyStr).2 =
      .error "ValueError: Unit must be one of m2, km2, hectare, rai" ∧
    (calculate_flood_area_by_village exClip exRaster [exVillage] [1, 2] "hect"
        exPyStr).1 =
      [Ev.readVillages, Ev.openRaster, Ev.readBand] ∧
    Ev.readBand ∈
      (calculate_flood_area_by_village exClip exRaster [exVillage] [1, 2] "hect"
        exPyStr).1 ∧
    ∀ k, Ev.clipPolygon k ∉
      (calculate_flood_area_by_village exClip exRaster [exVillage] [1, 2] "hect"
        exPyStr).1 :=
  C5_unknown_unit exClip exRaster [exVillage] [1, 2] exPyStr "hect"
    ⟨by decide, by decide, by decide, by decide⟩

/-- C7 counterexample: with thresholds `[1, 2]` the second band column is
named `"1.0-2.0m (m²)"` — with no space before `m` — not
`"1.0-2.0 m (m²)"` as the claimed uniform `"{lower}-{upper} m"` format
requires. -/
theorem C7_counterexample :
    ((exRowsM2.getD 0 defRow).fields.getD 3 ("", 0)).1 = "1.0-2.0m (m²)" ∧
    "1.0-2.0m (m²)" ≠ "1.0-2.0 m (m²)" :=
  ⟨rfl, by decide⟩

/-- C7 (amended): for every threshold list the band columns are built from
consecutive threshold pairs, the first band named `"0-{thresholds[0]} m"`
and the last `">{thresholds[-1]} m"`; but the intermediate bands are named
`"{lower}-{upper}m"` with no space before the `m`.  The generated column
names and their order are the same fixed list (determined only by the
thresholds, the unit suffix, and the float rendering) for every polygon row
of one run. -/
theorem C7_field_names (clip : ℕ → Except String (List (List FVal)))
    (raster : Raster) (vs : List Village) (ts : List ℚ) (unit : String)
    (pyStr : ℚ → String) (tr : List Ev) (rows : List ResultRow)
    (pa : ℚ) (suffix : String)
    (hres : unitResolve unit (pixelAreaM2 raster) = .ok (pa, suffix))
    (hrun : calculate_flood_area_by_village clip raster vs ts unit pyStr =
      (tr, .ok rows)) :
    ∀ k, k < rows.length →
      (rows.getD k defRow).fields.map Prod.fst =
        ("total_area" ++ suffix) :: ("no_flood_area" ++ suffix) ::
        ((List.range ts.length).map (fun i =>
          if i = 0 then "0-" ++ pyStr (ts.getD i 0) ++ " m" ++ suffix
          else pyStr (ts.getD (i - 1) 0) ++ "-" ++ pyStr (ts.getD i 0) ++ "m" ++
            suffix) ++
        [">" ++ pyStr (ts.getD (ts.length - 1) 0) ++ " m" ++ suffix,
          "total_flooded_area" ++ suffix]) := by
  obtain ⟨pa2, suffix2, hres2, -, hlen, hcells⟩ :=
    calculate_ok_spec clip raster vs ts unit pyStr tr rows hrun
  have hsuffix : suffix2 = suffix := by
    rw [hres] at hres2
    simp only [Except.ok.injEq, Prod.mk.injEq] at hres2
    exact hres2.2.symm
  intro k hk
  obtain ⟨g, c, -, -, hEq⟩ := hcells k (by omega)
  rw [hEq, villageResult_fields_fst, hsuffix]

theorem C7_field_names_witness :
    (exRowsM2.getD 0 defRow).fields.map Prod.fst =
      ("total_area" ++ " (m²)") :: ("no_flood_area" ++ " (m²)") ::
      ((List.range ([1, 2] : List ℚ).length).map (fun i =>
        if i = 0 then
          "0-" ++ exPyStr (([1, 2] : List ℚ).getD i 0) ++ " m" ++ " (m²)"
        else exPyStr (([1, 2] : List ℚ).getD (i - 1) 0) ++ "-" ++
          exPyStr (([1, 2] : List ℚ).getD i 0) ++ "m" ++ " (m²)") ++
      [">" ++ exPyStr (([1, 2] : List ℚ).getD (([1, 2] : List ℚ).length - 1) 0) ++
        " m" ++ " (m²)",
        "total_flooded_area" ++ " (m²)"]) :=
  C7_field_names exClip exRaster [exVillage] [1, 2] "m2" exPyStr
    exRunM2.1 exRowsM2 (pixelAreaM2 exRaster) " (m²)" rfl rfl 0 (by decide)

/-- C6: the resolved pixel area is `abs(transform.a * transform.e)` (map
units squared) divided by the fixed factor
`{m2: 1, km2: 1e6, hectare: 1e4, rai: 1600}` of the selected unit; hence for
the same clip, polygons and thresholds, corresponding area values computed
under two units satisfy `value₁ * factor₁ = value₂ * factor₂` (i.e. they are
related by the ratio of the factors). -/
theorem C6_unit_consistency :
    (∀ (raster : Raster) (unit : String) (pa : ℚ) (suffix : String),
      unitResolve unit (pixelAreaM2 raster) = .ok (pa, suffix) →
      pa = |raster.ta * raster.te| / unitFactor unit) ∧
    (∀ (clip : ℕ → Except String (List (List FVal))) (raster : Raster)
      (vs : List Village) (ts : List ℚ) (pyStr : ℚ → String) (u1 u2 : String)
      (tr1 tr2 : List Ev) (rows1 rows2 : List ResultRow),
      calculate_flood_area_by_village clip raster vs ts u1 pyStr = (tr1, .ok rows1) →
      calculate_flood_area_by_village clip raster vs ts u2 pyStr = (tr2, .ok rows2) →
      rows1.length = rows2.length ∧
      ∀ k j, ((rows1.getD k defRow).fields.getD j ("", 0)).2 * unitFactor u1 =
        ((rows2.getD k defRow).fields.getD j ("", 0)).2 * unitFactor u2) := by
  constructor
  · intro raster unit pa suffix h
    have hpa := (unitResolve_ok_pa h).1
    rwa [pixelAreaM2] at hpa
  · intro clip raster vs ts pyStr u1 u2 tr1 tr2 rows1 rows2 hrun1 hrun2
    obtain ⟨pa1, s1, hres1, -, hlen1, hcells1⟩ :=
      calculate_ok_spec clip raster vs ts u1 pyStr tr1 rows1 hrun1
    obtain ⟨pa2, s2, hres2, -, hlen2, hcells2⟩ :=
      calculate_ok_spec clip raster vs ts u2 pyStr tr2 rows2 hrun2
    obtain ⟨hpa1, hf1⟩ := unitResolve_ok_pa hres1
    obtain ⟨hpa2, hf2⟩ := unitResolve_ok_pa hres2
    refine ⟨by omega, ?_⟩
    intro k j
    by_cases hk : k < vs.length
    · obtain ⟨g1, c1, hclip1, hcl1, hEq1⟩ := hcells1 k hk
      obtain ⟨g2, c2, hclip2, hcl2, hEq2⟩ := hcells2 k hk
      have hg : g1 = g2 := Except.ok.inj (hclip1.symm.trans hclip2)
      subst hg
      have hc : c1 = c2 := Except.ok.inj (hcl1.symm.trans hcl2)
      subst hc
      rw [hEq1, hEq2, villageResult_getD_snd, villageResult_getD_snd, hpa1, hpa2]
      field_simp
    · have hk1 : rows1.length ≤ k := by omega
      have hk2 : rows2.length ≤ k := by omega
      rw [List.getD_eq_default _ _ hk1, List.getD_eq_default _ _ hk2]
      simp [defRow]

theorem C6_unit_consistency_witness :
    (pixelAreaM2 exRaster / 1600 = |exRaster.ta * exRaster.te| / unitFactor "rai") ∧
    ((exRowsRai.getD 0 defRow).fields.getD 2 ("", 0)).2 * unitFactor "rai" =
      ((exRowsM2.getD 0 defRow).fields.getD 2 ("", 0)).2 * unitFactor "m2" ∧
    ((exRowsRai.getD 0 defRow).fields.getD 2 ("", 0)).2 = 1 := by
  refine ⟨C6_unit_consistency.1 exRaster "rai" (pixelAreaM2 exRaster / 1600)
      " (rai)" rfl,
    (C6_unit_consistency.2 exClip exRaster [exVillage] [1, 2] exPyStr "rai" "m2"
      exRunRai.1 exRunM2.1 exRowsRai exRowsM2 rfl rfl).2 0 2, ?_⟩
  have hrun : calculate_flood_area_by_village exClip exRaster [exVillage] [1, 2]
      "rai" exPyStr = (exRunRai.1, Except.ok exRowsRai) := rfl
  obtain ⟨pa, suffix, hres, -, hlen, hcells⟩ :=
    calculate_ok_spec exClip exRaster [exVillage] [1, 2] "rai" exPyStr
      exRunRai.1 exRowsRai hrun
  obtain ⟨g, c, hclip, hcl, hEq⟩ := hcells 0 (by norm_num)
  have hg : g = [[FVal.val 1]] := by
    have h1 : exClip (([exVillage].getD 0 defVillage).geomId) =
        .ok [[FVal.val 1]] := rfl
    exact Except.ok.inj (hclip.symm.trans h1)
  subst hg
  have hc : c = [[1]] := by
    have h1 : classify_flood_depth [[FVal.val 1]] [1, 2] = Except.ok [[1]] := rfl
    exact Except.ok.inj (hcl.symm.trans h1)
  subst hc
  rw [hEq, villageResult_getD_snd]
  have hcount : (fieldCounts [[1]] [1, 2]).getD 2 0 =
      ((countP [[1]] (fun c => decide (c = 0 + 1)) : ℕ) : ℚ) := rfl
  have hcv : countP [[1]] (fun c => decide (c = 0 + 1)) = 1 := by decide
  rw [hcount, hcv]
  have hpa := (unitResolve_ok_pa hres).1
  rw [hpa]
  have hpam2 : pixelAreaM2 exRaster = 1600 := by
    rw [pixelAreaM2]
    show |(40 : ℚ) * -40| = 1600
    rw [abs_of_nonpos (by norm_num)]
    norm_num
  rw [hpam2]
  norm_num [unitFactor]

def exClipErr : ℕ → Except String (List (List FVal)) :=
  fun _ => .error "OverlapError: Input shapes do not overlap raster."

def exClipEmpty : ℕ → Except String (List (List FVal)) := fun _ => .ok []

def exRunEmpty : List Ev × Except String (List ResultRow) :=
  calculate_flood_area_by_village exClipEmpty exRaster [exVillage] [1, 2] "m2" exPyStr

def exRowsEmpty : List ResultRow := exRunEmpty.2.toOption.getD []

/-- C8 counterexample: when the clipping collaborator signals non-overlap as
an error, the aggregator does not catch it and does not substitute an
all-zero record: the run aborts with the propagated error and no result
table is produced. -/
theorem C8_counterexample :
    (calculate_flood_area_by_village exClipErr exRaster [exVillage] [1, 2] "m2"
        exPyStr).2 =
      .error "OverlapError: Input shapes do not overlap raster." ∧
    ((calculate_flood_area_by_village exClipErr exRaster [exVillage] [1, 2] "m2"
        exPyStr).2).toOption = none :=
  ⟨rfl, rfl⟩

/-- C8 (amended): a polygon whose clip comes back as an empty-but-valid grid
yields a record whose area fields are all zero, with no exception raised;
but when the clipping collaborator signals non-overlap as an error, the
aggregator does not catch it — the error propagates and aborts the run
(no all-zero record is substituted). -/
theorem C8_zero_overlap :
    (∀ (clip : ℕ → Except String (List (List FVal))) (raster : Raster)
      (vs : List Village) (ts : List ℚ) (unit : String) (pyStr : ℚ → String)
      (tr : List Ev) (rows : List ResultRow) (k : ℕ),
      calculate_flood_area_by_village clip raster vs ts unit pyStr =
        (tr, .ok rows) →
      k < vs.length →
      clip ((vs.getD k defVillage).geomId) = .ok [] →
      (rows.getD k defRow).fields.map Prod.snd =
        List.replicate (ts.length + 4) 0) ∧
    (∀ (clip : ℕ → Except String (List (List FVal))) (raster : Raster)
      (v : Village) (rest : List Village) (ts : List ℚ) (unit : String)
      (pyStr : ℚ → String) (pa : ℚ) (suffix : String) (e : String),
      unitResolve unit (pixelAreaM2 raster) = .ok (pa, suffix) →
      clip v.geomId = .error e →
      (calculate_flood_area_by_village clip raster (v :: rest) ts unit pyStr).2 =
        .error e) := by
  constructor
  · intro clip raster vs ts unit pyStr tr rows k hrun hk hclip
    obtain ⟨pa, suffix, -, -, hlen, hcells⟩ :=
      calculate_ok_spec clip raster vs ts unit pyStr tr rows hrun
    obtain ⟨g, c, hclip2, hcl, hEq⟩ := hcells k hk
    have hg : g = [] := Except.ok.inj (hclip2.symm.trans hclip)
    subst hg
    have hc : c = [] := by
      unfold classify_flood_depth at hcl
      by_cases hts : ts.isEmpty
      · rw [if_pos hts] at hcl; exact absurd hcl (by simp)
      · rw [if_neg hts] at hcl
        simp only [List.map_nil, Except.ok.injEq] at hcl
        exact hcl.symm
    subst hc
    rw [hEq, villageResult_fields_snd]
    refine List.eq_replicate.2 ⟨?_, ?_⟩
    · simp [fieldCounts]
    · intro b hb
      obtain ⟨c0, hc0, rfl⟩ := List.mem_map.1 hb
      rw [fieldCounts_nil ts c0 hc0, zero_mul]
  · intro clip raster v rest ts unit pyStr pa suffix e hres hclip
    unfold calculate_flood_area_by_village
    rw [hres]
    show (aggLoop clip ts pa suffix pyStr (v :: rest) 0).2 = .error e
    rw [aggLoop, hclip]

theorem C8_zero_overlap_witness :
    (exRowsEmpty.getD 0 defRow).fields.map Prod.snd =
      List.replicate (([1, 2] : List ℚ).length + 4) 0 ∧
    (calculate_flood_area_by_village exClipErr exRaster [exVillage] [1, 2] "m2"
        exPyStr).2 =
      .error "OverlapError: Input shapes do not overlap raster." :=
  ⟨C8_zero_overlap.1 exClipEmpty exRaster [exVillage] [1, 2] "m2" exPyStr
      exRunEmpty.1 exRowsEmpty 0 rfl (by norm_num) rfl,
    C8_zero_overlap.2 exClipErr exRaster exVillage [] [1, 2] "m2" exPyStr
      (pixelAreaM2 exRaster) " (m²)"
      "OverlapError: Input shapes do not overlap raster." rfl rfl⟩
